import Mathlib

/-!
Verification of the PAC (proxy auto-configuration) resolver core
(`proxy_resolver_v8.cc`): the string-marshaling ASCII check, the IP utility
algorithms (`SortIpAddressList`, `IsInNetEx`), the script-host operations
(`Context::ResolveProxy`, `Context::InitV8`, `ProxyResolverV8::SetPacScript`,
`ProxyResolverV8::GetProxyForURL`, `ProxyResolverV8::PurgeMemory`) and the
`dnsResolve` binding callback.

The scripting engine itself (V8) is the external scripting capability: its
behaviour is a parameter of each definition that invokes it (the outcome of
running a script, the outcome of calling the entry function).  Wide strings
are lists of UTF-16 code units; narrow strings are lists of characters.
The `net_util` IP helpers (`ParseIPLiteralToNumber`, `ParseCIDRBlock`,
`IPNumberMatchesPrefix`) are declared in headers whose implementation file is
not among the sources; they are modelled from the spec where noted.
-/

namespace PacResolver

/-! ### String marshaling: the ASCII check -/

/-- A wide (UTF-16) string as its list of code units (`android::String16`). -/
abbrev U16 := List Nat

/-- `DoIsStringASCII` (lines 68-75): scans the code units and reports false
as soon as one exceeds 0x7F. -/
def DoIsStringASCII (s : U16) : Bool :=
  s.all (fun c => decide (c ≤ 0x7F))

/-- `IsStringASCII` (lines 77-79). -/
def IsStringASCII (s : U16) : Bool :=
  DoIsStringASCII s

/-! ### Character-list utilities used by the IP algorithms -/

/-- Split a character list at every occurrence of `d`, keeping empty
segments (plain field splitting, used for `.`, `:`, `/` separated fields and
to describe what `strtok` skips). -/
def splitOnChar (d : Char) : List Char → List (List Char)
  | [] => [[]]
  | c :: rest =>
    if c = d then [] :: splitOnChar d rest
    else
      match splitOnChar d rest with
      | [] => [[c]]
      | t :: ts => (c :: t) :: ts

/-- `RemoveCharsT` (lines 246-263): removes every occurrence of a character
of `remove` from `input`; the first component reports whether anything was
removed, the second is what remains. -/
def RemoveCharsT : List Char → List Char → Bool × List Char
  | [], _ => (false, [])
  | c :: rest, remove =>
    let r := RemoveCharsT rest remove
    if c ∈ remove then (true, r.2) else (r.1, c :: r.2)

/-- `RemoveChars` (lines 265-269). -/
def RemoveChars (input : List Char) (remove : List Char) : Bool × List Char :=
  RemoveCharsT input remove

/-- The scan behind `strtokSemi`: `cur` is the (reversed) run of non-`;`
characters read so far; a `;` or the end of the input emits it when it is
non-empty, so only maximal non-empty runs become tokens. -/
def strtokAux (cur : List Char) : List Char → List (List Char)
  | [] => if cur = [] then [] else [cur.reverse]
  | c :: rest =>
    if c = ';' then
      if cur = [] then strtokAux [] rest
      else cur.reverse :: strtokAux [] rest
    else strtokAux (c :: cur) rest

/-- The `strtok(.., ";")` loop of `SortIpAddressList` (lines 291-297):
the maximal non-empty runs of characters between `;` separators; leading,
trailing and consecutive separators produce no token. -/
def strtokSemi (s : List Char) : List (List Char) :=
  strtokAux [] s

/-! ### Parsing IP literals (modelled from the spec) -/

/-- Decimal digit test. -/
def isDecDigit (c : Char) : Bool :=
  decide ('0' ≤ c) && decide (c ≤ '9')

/-- Value of a decimal digit. -/
def decDigitVal (c : Char) : Nat := c.toNat - '0'.toNat

/-- Hexadecimal digit test. -/
def isHexDigitChar (c : Char) : Bool :=
  isDecDigit c || (decide ('a' ≤ c) && decide (c ≤ 'f')) ||
    (decide ('A' ≤ c) && decide (c ≤ 'F'))

/-- Value of a hexadecimal digit. -/
def hexDigitVal (c : Char) : Nat :=
  if isDecDigit c then decDigitVal c
  else if decide ('a' ≤ c) && decide (c ≤ 'f') then c.toNat - 'a'.toNat + 10
  else c.toNat - 'A'.toNat + 10

/-- A non-empty all-decimal token as a number. -/
def parseDecimal (t : List Char) : Option Nat :=
  if t = [] then none
  else if t.all isDecDigit then
    some (t.foldl (fun a c => 10 * a + decDigitVal c) 0)
  else none

/-- Modelled from the spec: an IPv4 literal is four dot-separated decimal
components, each between 0 and 255; its parsed numeric form is the 4 bytes.
(`ParseIPLiteralToNumber` is declared in `net_util.h`; its implementation
file is not among the sources.) -/
def ParseIPv4 (s : List Char) : Option (List Nat) :=
  match (splitOnChar '.' s).mapM parseDecimal with
  | some [a, b, c, d] =>
    if a ≤ 255 ∧ b ≤ 255 ∧ c ≤ 255 ∧ d ≤ 255 then some [a, b, c, d] else none
  | _ => none

/-- A group of one to four hexadecimal digits. -/
def parseHexGroup (t : List Char) : Option Nat :=
  if t = [] then none
  else if t.length ≤ 4 ∧ t.all isHexDigitChar then
    some (t.foldl (fun a c => 16 * a + hexDigitVal c) 0)
  else none

/-- The first occurrence of `::`: the characters before it and after it. -/
def findDoubleColon : List Char → Option (List Char × List Char)
  | [] => none
  | [_] => none
  | a :: b :: rest =>
    if a = ':' ∧ b = ':' then some ([], rest)
    else
      match findDoubleColon (b :: rest) with
      | some (l, r) => some (a :: l, r)
      | none => none

/-- The two big-endian bytes of a 16-bit group value. -/
def groupBytes (g : Nat) : List Nat := [g / 256, g % 256]

/-- Colon-separated hexadecimal groups as their byte sequence; the empty
character list stands for an empty side of a `::` and has no groups. -/
def parseHexGroups (s : List Char) : Option (List Nat) :=
  if s = [] then some []
  else
    match (splitOnChar ':' s).mapM parseHexGroup with
    | some gs => some (gs.map groupBytes).flatten
    | none => none

/-- Modelled from the spec: an IPv6 literal is colon-separated groups of up
to four hexadecimal digits with at most one `::` compression standing for
the missing zero groups; its parsed numeric form is the 16 bytes. -/
def ParseIPv6 (s : List Char) : Option (List Nat) :=
  match findDoubleColon s with
  | none =>
    match parseHexGroups s with
    | some bytes => if bytes.length = 16 then some bytes else none
    | none => none
  | some (l, r) =>
    if (findDoubleColon r).isSome then none
    else
      match parseHexGroups l, parseHexGroups r with
      | some lb, some rb =>
        if lb.length + rb.length ≤ 14 then
          some (lb ++ List.replicate (16 - (lb.length + rb.length)) 0 ++ rb)
        else none
      | _, _ => none

/-- Modelled from the spec: `ParseIPLiteralToNumber` parses a token "as an
IPv4 or IPv6 literal" into its parsed numeric form (4 or 16 bytes); a token
containing a colon is an IPv6 literal, anything else an IPv4 literal. -/
def ParseIPLiteralToNumber (s : List Char) : Option (List Nat) :=
  if s.contains ':' then ParseIPv6 s else ParseIPv4 s

/-! ### The IP address comparator and the sort -/

/-- `memcmp(..) < 0` on byte sequences: lexicographic byte comparison
(`IPAddress::operator<` only ever compares sequences of equal length). -/
def memcmpLess : List Nat → List Nat → Bool
  | _, [] => false
  | [], _ :: _ => false
  | a :: as, b :: bs =>
    if a < b then true else if b < a then false else memcmpLess as bs

/-- The comparison of `IPAddress::operator<` (lines 234-240): an address
with more bytes (IPv6) sorts before one with fewer (IPv4); equal byte
counts compare by `memcmp` ascending. -/
def ipNumberLess (ip1 ip2 : List Nat) : Bool :=
  if ip1.length ≠ ip2.length then decide (ip1.length > ip2.length)
  else memcmpLess ip1 ip2

/-- `IPAddress` (lines 226-244): the token's original textual form paired
with its parsed numeric form. -/
structure IPAddress where
  string_value : List Char
  ip_address_number : List Nat
deriving DecidableEq

/-- `IPAddress::operator<`. -/
def IPAddress.less (a b : IPAddress) : Bool :=
  ipNumberLess a.ip_address_number b.ip_address_number

/-- Insertion before the first element not strictly below `x`: the building
block of stable insertion sort, the reference realisation of what
`std::stable_sort` produces for this comparator. -/
def insertIP (x : IPAddress) : List IPAddress → List IPAddress
  | [] => [x]
  | y :: ys => if IPAddress.less y x then y :: insertIP x ys else x :: y :: ys

/-- The `std::stable_sort` call of `SortIpAddressList` (line 304), realised
as stable insertion sort.  (The code only sorts when more than one address
was parsed; sorting a singleton is the identity, so the guard is dropped.) -/
def stableSortIP : List IPAddress → List IPAddress
  | [] => []
  | x :: xs => insertIP x (stableSortIP xs)

/-- The parse loop of `SortIpAddressList` (lines 292-297): parse every token,
fail on the first token that is no IP literal. -/
def parseIPTokens : List (List Char) → Option (List IPAddress)
  | [] => some []
  | t :: ts =>
    match ParseIPLiteralToNumber t, parseIPTokens ts with
    | some n, some v => some (⟨t, n⟩ :: v)
    | _, _ => none

/-- `SortIpAddressList` (lines 278-314): strip spaces and tabs, fail if
nothing remains, tokenise on `;`, parse every token, fail if none parsed,
stable-sort, rejoin the original textual forms with `;`.  `none` models the
C++ `false` return, which leaves the cleared (empty) output string. -/
def SortIpAddressList (ip_address_list : List Char) : Option (List Char) :=
  if (RemoveChars ip_address_list [' ', '\t']).2 = [] then none
  else
    match parseIPTokens (strtokSemi (RemoveChars ip_address_list [' ', '\t']).2) with
    | none => none
    | some ip_vector =>
      if ip_vector = [] then none
      else
        some (List.intercalate [';']
          ((stableSortIP ip_vector).map IPAddress.string_value))

/-! ### CIDR matching -/

/-- A byte sequence as the number it denotes big-endian. -/
def ipToNat (bytes : List Nat) : Nat :=
  bytes.foldl (fun a b => 256 * a + b) 0

/-- Modelled from the spec: `IPNumberMatchesPrefix` of `net_util` (its
implementation file is not among the sources); the spec states the result
is "true iff the top `bitlength` bits of address match the prefix
network". -/
def IPNumberMatchesCIDR (addr network : List Nat) (bits : Nat) : Bool :=
  decide (ipToNat addr / 2 ^ (8 * addr.length - bits) =
    ipToNat network / 2 ^ (8 * network.length - bits))

/-- Modelled from the spec: `ParseCIDRBlock` of `net_util` (its
implementation file is not among the sources); the spec states "Parse
`prefix` as `address/bitlength`; false on failure": a slash-separated IP
literal and decimal bit count, the count at most the address width. -/
def ParseCIDRBlock (cidr : List Char) : Option (List Nat × Nat) :=
  match splitOnChar '/' cidr with
  | [addrPart, bitsPart] =>
    match ParseIPLiteralToNumber addrPart, parseDecimal bitsPart with
    | some nw, some bits => if bits ≤ 8 * nw.length then some (nw, bits) else none
    | _, _ => none
  | _ => none

/-- `IsInNetEx` (lines 324-342): malformed if stripping space or tab from
the address removes anything; false if the address or the CIDR block fails
to parse or the two differ in byte length; otherwise the top-bits match. -/
def IsInNetEx (ip_address cidr : List Char) : Bool :=
  if (RemoveChars ip_address [' ', '\t']).1 then false
  else
    match ParseIPLiteralToNumber ip_address with
    | none => false
    | some address =>
      match ParseCIDRBlock cidr with
      | none => false
      | some (nw, prefix_length_in_bits) =>
        if address.length ≠ nw.length then false
        else IPNumberMatchesCIDR address nw prefix_length_in_bits

/-! ### The script host

V8 is the external scripting capability: an execution context is a value of
an arbitrary type `Env`, and the engine's behaviour is supplied as functions
(`runScript` — the outcome of compiling and running one script in a context,
`entryCallable` — whether the context's global `FindProxyForURL` is a
callable function, an outcome of calling the entry function). -/

/-- A script's UTF-16 source text (`android::String16 script_data`). -/
abbrev Script := List Nat

/-- A JavaScript value as far as the host inspects one: `IsString` and, for
strings, the UTF-16 code units. -/
inductive JSValue where
  | undef
  | nullv
  | boolean (b : Bool)
  | number (n : Int)
  | str (s : U16)
  | object
deriving DecidableEq

/-- `v8::Value::IsString()`. -/
def JSValue.isString : JSValue → Bool
  | .str _ => true
  | _ => false

/-- The outcome of the V8 call on the entry function: it either threw (the
`try_catch.HasCaught()` branch, with the caught diagnostic) or returned a
value. -/
inductive V8Outcome where
  | threw (diag : U16)
  | returned (v : JSValue)
deriving DecidableEq

/-- The status codes the resolver returns (`OK`, `ERR_FAILED`,
`ERR_PAC_SCRIPT_FAILED` of `proxy_resolver_v8.h`, three distinct values). -/
inductive StatusCode where
  | ok
  | errFailed
  | errPacScriptFailed
deriving DecidableEq

/-- The diagnostics `Context::ResolveProxy` hands the error listener, one
per failure path (lines 386-420). -/
inductive ErrMsg where
  | entryUndefined
  | thrown (diag : U16)
  | notAString
  | nonAscii
deriving DecidableEq

/-- `ProxyResolverV8::Context::ResolveProxy` (lines 374-424): `entryOk` is
what `GetFindProxyForURL` reports for the loaded context, `outcome` the V8
call on the entry function.  Result: the returned status code, the
`*results` out-parameter as far as it was written, and the message sent to
the error listener. -/
def ResolveProxy (entryOk : Bool) (outcome : V8Outcome) :
    StatusCode × Option U16 × Option ErrMsg :=
  if entryOk = false then (.errPacScriptFailed, none, some .entryUndefined)
  else
    match outcome with
    | .threw d => (.errPacScriptFailed, none, some (.thrown d))
    | .returned ret =>
      match ret with
      | .str s =>
        if IsStringASCII s then (.ok, some s, none)
        else (.errPacScriptFailed, some s, some .nonAscii)
      | _ => (.errPacScriptFailed, none, some .notAString)

/-- The three ways `Context::InitV8` can end: a script failed to
compile/run, the entry function is missing or not callable, or a ready
context. -/
inductive InitResult (Env : Type) where
  | compileFailure
  | entryMissing
  | ok (e : Env)
deriving DecidableEq

/-- `ProxyResolverV8::Context::InitV8` (lines 426-505): run the fixed
utility library (the concatenated `PROXY_RESOLVER_SCRIPT` and
`PROXY_RESOLVER_SCRIPT_EX` literals) in the fresh context `e0`, then the
user's PAC script in the resulting context (the same shared global scope),
then require a callable global `FindProxyForURL`. -/
def InitV8 {Env : Type} (runScript : Env → Script → Option Env)
    (entryCallable : Env → Bool) (e0 : Env)
    (utilityScript pac_script : Script) : InitResult Env :=
  match runScript e0 utilityScript with
  | none => .compileFailure
  | some e1 =>
    match runScript e1 pac_script with
    | none => .compileFailure
    | some e2 => if entryCallable e2 then .ok e2 else .entryMissing

/-- The value `ProxyResolverV8::SetPacScript` returns: `OK` or
`ERR_PAC_SCRIPT_FAILED` (every failure path returns the latter). -/
inductive SetScriptResult where
  | ok
  | pacScriptFailed
deriving DecidableEq

/-- `ProxyResolverV8::SetPacScript` (lines 757-784): any prior context is
deleted and nulled first; an empty script fails; otherwise a fresh context
on a fresh isolate is initialised with `InitV8`, and on failure the member
is nulled again.  The pair is (returned status, the `context_` member
afterwards); `_context_` is the member before the call. -/
def SetPacScript {Env : Type} (runScript : Env → Script → Option Env)
    (entryCallable : Env → Bool) (e0 : Env) (utilityScript : Script)
    (_context_ : Option Env) (script_data : Script) :
    SetScriptResult × Option Env :=
  if script_data.length = 0 then (.pacScriptFailed, none)
  else
    match InitV8 runScript entryCallable e0 utilityScript script_data with
    | .ok e => (.ok, some e)
    | _ => (.pacScriptFailed, none)

/-- `ProxyResolverV8::GetProxyForURL` (lines 740-751): a null `context_`
returns `ERR_FAILED` at once; otherwise the call is handed to
`Context::ResolveProxy`, whose engine behaviour for the loaded context and
request is described by `entryOk` and `outcome`. -/
def GetProxyForURL {Env : Type} (entryOk : Env → Bool)
    (outcome : Env → U16 → U16 → V8Outcome) (context_ : Option Env)
    (url host : U16) : StatusCode × Option U16 × Option ErrMsg :=
  match context_ with
  | none => (.errFailed, none, none)
  | some e => ResolveProxy (entryOk e) (outcome e url host)

/-- `ProxyResolverV8::PurgeMemory` (lines 753-755): the whole body is
`context_->PurgeMemory();` with no null test.  A member call through a null
`context_` has no defined behaviour, embedded as `none`; with a context the
call asks the isolate for a low-memory collection and completes, changing
no observable resolver state (`some ()`). -/
def PurgeMemory {Ctx : Type} : Option Ctx → Option Unit
  | none => none
  | some _ => some ()

/-! ### The dnsResolve binding -/

/-- What a binding callback leaves in `args.GetReturnValue()`: nothing at
all (the script sees `undefined`), explicit null, or a string. -/
inductive CallbackReturn where
  | noValue
  | nullValue
  | strValue (s : U16)
deriving DecidableEq

/-- `GetHostnameArgument` (lines 210-223): the first argument must exist and
be a string whose code units are all ASCII; the hostname is its ASCII
narrowing (code-unit for code-unit, since it is ASCII). -/
def GetHostnameArgument (args : List JSValue) : Option U16 :=
  match args with
  | [] => none
  | v :: _ =>
    match v with
    | .str s => if IsStringASCII s then some s else none
    | _ => none

/-- `Context::DnsResolveCallback` (lines 621-644): a bad hostname argument
returns without touching the return value; otherwise the network bindings
collaborator (`dnsResolve`, `none` = lookup failure) decides between the
IPv4 string and explicit null. -/
def DnsResolveCallback (dnsResolve : U16 → Option U16) (args : List JSValue) :
    CallbackReturn :=
  match GetHostnameArgument args with
  | none => .noValue
  | some hostname =>
    match dnsResolve hostname with
    | some ip => .strValue ip
    | none => .nullValue

/-! ### Order lemmas for the comparator -/

theorem memcmpLess_nil_left (b : List Nat) : memcmpLess [] b = false := by
  cases b <;> rfl

theorem memcmpLess_nil_right (a : List Nat) : memcmpLess a [] = false := by
  cases a <;> rfl

theorem memcmpLess_cons (x y : Nat) (xs ys : List Nat) :
    memcmpLess (x :: xs) (y :: ys) =
      if x < y then true else if y < x then false else memcmpLess xs ys := rfl

theorem memcmpLess_irrefl (a : List Nat) : memcmpLess a a = false := by
  induction a with
  | nil => rfl
  | cons x xs ih => simp [memcmpLess_cons, ih]

theorem memcmpLess_asymm : {a b : List Nat} →
    memcmpLess a b = true → memcmpLess b a = false
  | _, [], h => by rw [memcmpLess_nil_right] at h; cases h
  | [], _ :: _, h => by rw [memcmpLess_nil_left] at h; cases h
  | x :: xs, y :: ys, h => by
    rw [memcmpLess_cons] at h
    rw [memcmpLess_cons]
    rcases Nat.lt_trichotomy x y with hxy | hxy | hxy
    · rw [if_neg (Nat.lt_asymm hxy), if_pos hxy]
    · subst hxy
      rw [if_neg (Nat.lt_irrefl x), if_neg (Nat.lt_irrefl x)] at h
      rw [if_neg (Nat.lt_irrefl x), if_neg (Nat.lt_irrefl x)]
      exact memcmpLess_asymm h
    · rw [if_neg (Nat.lt_asymm hxy), if_pos hxy] at h
      cases h

theorem memcmpLess_trans : {a b c : List Nat} →
    memcmpLess a b = true → memcmpLess b c = true → memcmpLess a c = true
  | _, _, [], _, h2 => by rw [memcmpLess_nil_right] at h2; cases h2
  | _, [], _ :: _, h1, _ => by rw [memcmpLess_nil_right] at h1; cases h1
  | [], _ :: _, _ :: _, h1, _ => by rw [memcmpLess_nil_left] at h1; cases h1
  | x :: xs, y :: ys, z :: zs, h1, h2 => by
    rw [memcmpLess_cons] at h1 h2
    rw [memcmpLess_cons]
    rcases Nat.lt_trichotomy x y with hxy | hxy | hxy
    · rcases Nat.lt_trichotomy y z with hyz | hyz | hyz
      · rw [if_pos (Nat.lt_trans hxy hyz)]
      · subst hyz; rw [if_pos hxy]
      · rw [if_neg (Nat.lt_asymm hyz), if_pos hyz] at h2; cases h2
    · subst hxy
      rw [if_neg (Nat.lt_irrefl x), if_neg (Nat.lt_irrefl x)] at h1
      rcases Nat.lt_trichotomy x z with hxz | hxz | hxz
      · rw [if_pos hxz]
      · subst hxz
        rw [if_neg (Nat.lt_irrefl x), if_neg (Nat.lt_irrefl x)] at h2
        rw [if_neg (Nat.lt_irrefl x), if_neg (Nat.lt_irrefl x)]
        exact memcmpLess_trans h1 h2
      · rw [if_neg (Nat.lt_asymm hxz), if_pos hxz] at h2; cases h2
    · rw [if_neg (Nat.lt_asymm hxy), if_pos hxy] at h1; cases h1

theorem memcmpLess_eq_of_not_less : {a b : List Nat} → a.length = b.length →
    memcmpLess a b = false → memcmpLess b a = false → a = b
  | [], [], _, _, _ => rfl
  | [], _ :: _, hlen, _, _ => by cases hlen
  | _ :: _, [], hlen, _, _ => by cases hlen
  | x :: xs, y :: ys, hlen, h1, h2 => by
    rw [memcmpLess_cons] at h1 h2
    rcases Nat.lt_trichotomy x y with hxy | hxy | hxy
    · rw [if_pos hxy] at h1; cases h1
    · subst hxy
      rw [if_neg (Nat.lt_irrefl x), if_neg (Nat.lt_irrefl x)] at h1 h2
      have hlen' : xs.length = ys.length := by
        simpa using hlen
      rw [memcmpLess_eq_of_not_less hlen' h1 h2]
    · rw [if_neg (Nat.lt_asymm hxy), if_pos hxy] at h2; cases h2

/-- `ipNumberLess` written with a positive length test. -/
theorem ipNumberLess_eq_ite (a b : List Nat) :
    ipNumberLess a b =
      if a.length = b.length then memcmpLess a b
      else decide (a.length > b.length) := by
  unfold ipNumberLess
  by_cases h : a.length = b.length <;> simp [h]

theorem ipNumberLess_irrefl (a : List Nat) : ipNumberLess a a = false := by
  simp [ipNumberLess_eq_ite, memcmpLess_irrefl]

theorem ipNumberLess_asymm {a b : List Nat} (h : ipNumberLess a b = true) :
    ipNumberLess b a = false := by
  rw [ipNumberLess_eq_ite] at h
  rw [ipNumberLess_eq_ite]
  by_cases hlen : a.length = b.length
  · rw [if_pos hlen] at h
    rw [if_pos hlen.symm]
    exact memcmpLess_asymm h
  · rw [if_neg hlen] at h
    rw [if_neg (fun hx => hlen hx.symm)]
    simp only [decide_eq_true_eq] at h
    simp only [decide_eq_false_iff_not]
    omega

theorem ipNumberLess_trans {a b c : List Nat} (h1 : ipNumberLess a b = true)
    (h2 : ipNumberLess b c = true) : ipNumberLess a c = true := by
  rw [ipNumberLess_eq_ite] at h1 h2
  rw [ipNumberLess_eq_ite]
  by_cases hab : a.length = b.length <;> by_cases hbc : b.length = c.length
  · rw [if_pos hab] at h1
    rw [if_pos hbc] at h2
    rw [if_pos (hab.trans hbc)]
    exact memcmpLess_trans h1 h2
  · rw [if_pos hab] at h1
    rw [if_neg hbc] at h2
    rw [if_neg (fun hx => hbc (hab ▸ hx))]
    simp only [decide_eq_true_eq] at h2 ⊢
    omega
  · rw [if_neg hab] at h1
    rw [if_pos hbc] at h2
    rw [if_neg (fun hx => hab (hbc ▸ hx))]
    simp only [decide_eq_true_eq] at h1 ⊢
    omega
  · rw [if_neg hab] at h1
    rw [if_neg hbc] at h2
    simp only [decide_eq_true_eq] at h1 h2
    rw [if_neg (by omega), decide_eq_true_eq]
    omega

theorem ipNumberLess_eq_of_not_less {a b : List Nat}
    (h1 : ipNumberLess a b = false) (h2 : ipNumberLess b a = false) : a = b := by
  rw [ipNumberLess_eq_ite] at h1 h2
  by_cases hlen : a.length = b.length
  · rw [if_pos hlen] at h1
    rw [if_pos hlen.symm] at h2
    exact memcmpLess_eq_of_not_less hlen h1 h2
  · rw [if_neg hlen] at h1
    rw [if_neg (fun hx => hlen hx.symm)] at h2
    simp only [decide_eq_false_iff_not] at h1 h2
    omega

/-- Negative transitivity of the comparator (it is a strict weak order). -/
theorem ipNumberLess_neg_trans {a b c : List Nat}
    (h1 : ipNumberLess b a = false) (h2 : ipNumberLess c b = false) :
    ipNumberLess c a = false := by
  cases hca : ipNumberLess c a with
  | false => rfl
  | true =>
    exfalso
    cases hbc : ipNumberLess b c with
    | true =>
      have h := ipNumberLess_trans hbc hca
      rw [h] at h1
      cases h1
    | false =>
      have hbceq : b = c := ipNumberLess_eq_of_not_less hbc h2
      subst hbceq
      rw [hca] at h1
      cases h1

/-! ### The stable sort: permutation, sortedness, stability -/

theorem IPAddress.less_asymm {a b : IPAddress} (h : IPAddress.less a b = true) :
    IPAddress.less b a = false :=
  ipNumberLess_asymm h

theorem IPAddress.less_neg_trans {a b c : IPAddress}
    (h1 : IPAddress.less b a = false) (h2 : IPAddress.less c b = false) :
    IPAddress.less c a = false :=
  ipNumberLess_neg_trans h1 h2

theorem insertIP_perm (x : IPAddress) (l : List IPAddress) :
    List.Perm (insertIP x l) (x :: l) := by
  induction l with
  | nil => exact List.Perm.refl _
  | cons y ys ih =>
    unfold insertIP
    by_cases h : IPAddress.less y x
    · rw [if_pos h]
      exact (ih.cons y).trans (List.Perm.swap x y ys)
    · rw [if_neg h]

theorem stableSortIP_perm (l : List IPAddress) :
    List.Perm (stableSortIP l) l := by
  induction l with
  | nil => exact List.Perm.refl _
  | cons x xs ih => exact (insertIP_perm x (stableSortIP xs)).trans (ih.cons x)

theorem insertIP_pairwise {x : IPAddress} {l : List IPAddress}
    (h : List.Pairwise (fun a b => IPAddress.less b a = false) l) :
    List.Pairwise (fun a b => IPAddress.less b a = false) (insertIP x l) := by
  induction l with
  | nil => simp [insertIP]
  | cons y ys ih =>
    rcases List.pairwise_cons.mp h with ⟨hy, hys⟩
    unfold insertIP
    by_cases hyx : IPAddress.less y x = true
    · rw [if_pos hyx]
      refine List.pairwise_cons.mpr ⟨?_, ih hys⟩
      intro z hz
      rcases List.mem_cons.mp ((insertIP_perm x ys).mem_iff.mp hz) with hzx | hzys
      · subst hzx
        exact IPAddress.less_asymm hyx
      · exact hy z hzys
    · rw [if_neg hyx]
      refine List.pairwise_cons.mpr ⟨?_, h⟩
      intro z hz
      rcases List.mem_cons.mp hz with hzy | hzys
      · subst hzy
        exact Bool.eq_false_iff.mpr hyx
      · exact IPAddress.less_neg_trans (Bool.eq_false_iff.mpr hyx) (hy z hzys)

theorem stableSortIP_pairwise (l : List IPAddress) :
    List.Pairwise (fun a b => IPAddress.less b a = false) (stableSortIP l) := by
  induction l with
  | nil => exact List.Pairwise.nil
  | cons x xs ih => exact insertIP_pairwise ih

theorem insertIP_filter (x : IPAddress) (l : List IPAddress) (n : List Nat) :
    (insertIP x l).filter (fun a => decide (a.ip_address_number = n)) =
      if x.ip_address_number = n
      then x :: l.filter (fun a => decide (a.ip_address_number = n))
      else l.filter (fun a => decide (a.ip_address_number = n)) := by
  induction l with
  | nil =>
    by_cases hx : x.ip_address_number = n <;>
      simp [insertIP, List.filter, hx]
  | cons y ys ih =>
    unfold insertIP
    by_cases hyx : IPAddress.less y x = true
    · rw [if_pos hyx]
      by_cases hx : x.ip_address_number = n
      · have hyn : ¬ y.ip_address_number = n := by
          intro hy
          have hnum : y.ip_address_number = x.ip_address_number := by
            rw [hy, hx]
          rw [IPAddress.less, hnum, ipNumberLess_irrefl] at hyx
          cases hyx
        simp [List.filter_cons, hyn, hx, ih]
      · by_cases hyn : y.ip_address_number = n <;>
          simp [List.filter_cons, hyn, hx, ih]
    · rw [if_neg hyx]
      by_cases hx : x.ip_address_number = n <;>
        simp [List.filter_cons, hx]

theorem stableSortIP_filter (l : List IPAddress) (n : List Nat) :
    (stableSortIP l).filter (fun a => decide (a.ip_address_number = n)) =
      l.filter (fun a => decide (a.ip_address_number = n)) := by
  induction l with
  | nil => rfl
  | cons x xs ih =>
    rw [stableSortIP, insertIP_filter]
    by_cases hx : x.ip_address_number = n <;>
      simp [List.filter_cons, hx, ih]

/-! ### The strtok tokenisation versus plain splitting -/

theorem splitOnChar_ne_nil (d : Char) (s : List Char) : splitOnChar d s ≠ [] := by
  cases s with
  | nil => simp [splitOnChar]
  | cons c rest =>
    by_cases h : c = d
    · simp [splitOnChar, h]
    · simp only [splitOnChar, if_neg h]
      cases hx : splitOnChar d rest <;> simp

theorem splitOnChar_cons_of_sep (d : Char) (rest : List Char) :
    splitOnChar d (d :: rest) = [] :: splitOnChar d rest := by
  simp [splitOnChar]

theorem splitOnChar_cons_of_ne {d c : Char} (h : ¬ c = d) (rest : List Char)
    {t0 : List Char} {ts0 : List (List Char)}
    (hsplit : splitOnChar d rest = t0 :: ts0) :
    splitOnChar d (c :: rest) = (c :: t0) :: ts0 := by
  simp only [splitOnChar, if_neg h, hsplit]

theorem strtokAux_nil (cur : List Char) :
    strtokAux cur [] = if cur = [] then [] else [cur.reverse] := rfl

theorem strtokAux_cons (cur : List Char) (c : Char) (rest : List Char) :
    strtokAux cur (c :: rest) =
      if c = ';' then
        if cur = [] then strtokAux [] rest
        else cur.reverse :: strtokAux [] rest
      else strtokAux (c :: cur) rest := rfl

theorem strtokAux_eq_filter :
    ∀ (s cur t : List Char) (ts : List (List Char)),
      splitOnChar ';' s = t :: ts →
      strtokAux cur s =
        ((cur.reverse ++ t) :: ts).filter (fun u => decide (u ≠ [])) := by
  intro s
  induction s with
  | nil =>
    intro cur t ts h
    simp only [splitOnChar] at h
    injection h with h1 h2
    subst h1
    subst h2
    by_cases hcur : cur = [] <;>
      simp [strtokAux_nil, hcur, List.filter]
  | cons c rest ih =>
    intro cur t ts h
    obtain ⟨t0, ts0, hsplit⟩ : ∃ t0 ts0, splitOnChar ';' rest = t0 :: ts0 := by
      cases hx : splitOnChar ';' rest with
      | nil => exact absurd hx (splitOnChar_ne_nil ';' rest)
      | cons a b => exact ⟨a, b, rfl⟩
    by_cases hc : c = ';'
    · subst hc
      rw [splitOnChar_cons_of_sep, hsplit] at h
      injection h with h1 h2
      subst h1
      subst h2
      have hrec := ih [] t0 ts0 hsplit
      simp only [List.reverse_nil, List.nil_append] at hrec
      by_cases hcur : cur = []
      · subst hcur
        rw [strtokAux_cons, if_pos rfl, if_pos rfl, hrec]
        simp [List.filter_cons]
      · rw [strtokAux_cons, if_pos rfl, if_neg hcur, hrec]
        have hrev : ¬ cur.reverse = [] := by
          simpa using hcur
        simp [List.filter_cons, hrev]
    · rw [splitOnChar_cons_of_ne hc rest hsplit] at h
      injection h with h1 h2
      subst h1
      subst h2
      have hrec := ih (c :: cur) t0 ts0 hsplit
      rw [strtokAux_cons, if_neg hc, hrec]
      simp [List.reverse_cons, List.append_assoc]

theorem strtokSemi_eq_filter (s : List Char) :
    strtokSemi s = (splitOnChar ';' s).filter (fun u => decide (u ≠ [])) := by
  obtain ⟨t, ts, h⟩ : ∃ t ts, splitOnChar ';' s = t :: ts := by
    cases hx : splitOnChar ';' s with
    | nil => exact absurd hx (splitOnChar_ne_nil ';' s)
    | cons a b => exact ⟨a, b, rfl⟩
  rw [strtokSemi, strtokAux_eq_filter s [] t ts h, h]
  simp

/-! ### Bridging the ASCII check to its specification -/

theorem isStringASCII_eq_true {s : U16} (h : ∀ u ∈ s, u ≤ 0x7F) :
    IsStringASCII s = true := by
  simp only [IsStringASCII, DoIsStringASCII, List.all_eq_true, decide_eq_true_eq]
  exact h

theorem isStringASCII_eq_false {s : U16} (h : ∃ u ∈ s, 0x7F < u) :
    IsStringASCII s = false := by
  obtain ⟨u, hu, hgt⟩ := h
  cases hall : IsStringASCII s with
  | false => rfl
  | true =>
    exfalso
    have h2 : ∀ x ∈ s, decide (x ≤ 0x7F) = true :=
      List.all_eq_true.mp (by simpa [IsStringASCII, DoIsStringASCII] using hall)
    have h3 := h2 u hu
    simp only [decide_eq_true_eq] at h3
    omega

/-! ### The claims -/

/-- Claim C1: on a loaded context (the entry function resolved as callable),
an entry-function call that returns a non-string fails as ReturnNotString
(status `ERR_PAC_SCRIPT_FAILED`, diagnostic "did not return a string"); a
returned string containing a code unit above 0x7F fails as NonAsciiResult;
a returned string whose code units are all at most 0x7F succeeds with
exactly that string, unchanged. -/
theorem resolveProxy_return_contract (ret : JSValue) :
    (ret.isString = false →
      ResolveProxy true (.returned ret) =
        (.errPacScriptFailed, none, some .notAString)) ∧
    (∀ s : U16, ret = .str s →
      ((∃ u ∈ s, 0x7F < u) →
        ResolveProxy true (.returned ret) =
          (.errPacScriptFailed, some s, some .nonAscii)) ∧
      ((∀ u ∈ s, u ≤ 0x7F) →
        ResolveProxy true (.returned ret) = (.ok, some s, none))) := by
  constructor
  · intro h
    cases ret <;> simp_all [ResolveProxy, JSValue.isString]
  · intro s hs
    subst hs
    constructor
    · intro h
      simp [ResolveProxy, isStringASCII_eq_false h]
    · intro h
      simp [ResolveProxy, isStringASCII_eq_true h]

/-- Claim C5 (refuted, a code bug): the body of
`ProxyResolverV8::PurgeMemory` is `context_->PurgeMemory();` with no null
test, so before any successful `SetPacScript` (or after a failed one) the
call goes through a null `context_` — no defined no-op completion — while
with a loaded context it completes changing no observable state. -/
theorem purgeMemory_without_context :
    PurgeMemory (none : Option Unit) = none ∧
    PurgeMemory (some ()) = some () :=
  ⟨rfl, rfl⟩

/-- Claim C6: the dnsResolve binding callback produces no return value at
all (seen as undefined, a different value than null) when the first
argument is missing, not a string, or a string with a code unit above 0x7F,
and it never raises (it is total); with an ASCII string argument a failed
collaborator lookup yields explicit null, a successful one the
collaborator's IPv4 string. -/
theorem dnsResolveCallback_contract (dns : U16 → Option U16)
    (args : List JSValue) :
    (args = [] → DnsResolveCallback dns args = .noValue) ∧
    (∀ v rest, args = v :: rest → v.isString = false →
      DnsResolveCallback dns args = .noValue) ∧
    (∀ s rest, args = .str s :: rest → (∃ u ∈ s, 0x7F < u) →
      DnsResolveCallback dns args = .noValue) ∧
    (∀ s rest, args = .str s :: rest → (∀ u ∈ s, u ≤ 0x7F) →
      dns s = none → DnsResolveCallback dns args = .nullValue) ∧
    (∀ s rest ip, args = .str s :: rest → (∀ u ∈ s, u ≤ 0x7F) →
      dns s = some ip → DnsResolveCallback dns args = .strValue ip) ∧
    CallbackReturn.noValue ≠ CallbackReturn.nullValue := by
  refine ⟨?_, ?_, ?_, ?_, ?_, by simp⟩
  · intro h
    subst h
    rfl
  · intro v rest h hstr
    subst h
    cases v <;> simp_all [DnsResolveCallback, GetHostnameArgument, JSValue.isString]
  · intro s rest h hna
    subst h
    simp [DnsResolveCallback, GetHostnameArgument, isStringASCII_eq_false hna]
  · intro s rest h hascii hdns
    subst h
    simp [DnsResolveCallback, GetHostnameArgument, isStringASCII_eq_true hascii, hdns]
  · intro s rest ip h hascii hdns
    subst h
    simp [DnsResolveCallback, GetHostnameArgument, isStringASCII_eq_true hascii, hdns]

/-- Claim C7: `SetPacScript` discards any prior context up front — its
outcome never depends on the context that was loaded before — and whenever
it fails (empty script, compile failure, missing or non-callable entry) the
resolver is left uninitialised, `context_ = none`, with the prior context
gone; when it succeeds the active context is exactly the one `InitV8`
built, never a mix. -/
theorem setPacScript_replaces_context (Env : Type)
    (runScript : Env → Script → Option Env) (entryCallable : Env → Bool)
    (e0 : Env) (utilityScript : Script) (st st' : Option Env)
    (script_data : Script) :
    (SetPacScript runScript entryCallable e0 utilityScript st script_data =
      SetPacScript runScript entryCallable e0 utilityScript st' script_data) ∧
    (∀ r c,
      SetPacScript runScript entryCallable e0 utilityScript st script_data = (r, c) →
      (r ≠ .ok → c = none) ∧
      (r = .ok → ∃ e,
        InitV8 runScript entryCallable e0 utilityScript script_data = .ok e ∧
        c = some e)) := by
  refine ⟨rfl, ?_⟩
  intro r c h
  unfold SetPacScript at h
  by_cases hlen : script_data.length = 0
  · rw [if_pos hlen] at h
    obtain ⟨rfl, rfl⟩ := Prod.mk.injEq .. |>.mp h.symm
    exact ⟨fun _ => rfl, fun hok => absurd hok (by simp)⟩
  · rw [if_neg hlen] at h
    cases hinit : InitV8 runScript entryCallable e0 utilityScript script_data with
    | compileFailure =>
      rw [hinit] at h
      obtain ⟨rfl, rfl⟩ := Prod.mk.injEq .. |>.mp h.symm
      exact ⟨fun _ => rfl, fun hok => absurd hok (by simp)⟩
    | entryMissing =>
      rw [hinit] at h
      obtain ⟨rfl, rfl⟩ := Prod.mk.injEq .. |>.mp h.symm
      exact ⟨fun _ => rfl, fun hok => absurd hok (by simp)⟩
    | ok e =>
      rw [hinit] at h
      obtain ⟨rfl, rfl⟩ := Prod.mk.injEq .. |>.mp h.symm
      exact ⟨fun hne => absurd rfl hne, fun _ => ⟨e, rfl, rfl⟩⟩

/-- Claim C8: `InitV8` runs the fixed utility library first, in the fresh
context, and the user script afterwards in the context the library run
produced (the same shared global scope); it reports a compile failure
exactly when either script failed to parse/run, entry-missing exactly when
both ran but the global `FindProxyForURL` is not a callable function, and
succeeds exactly when both ran and the entry function is callable — the
ready context being the one the user script produced. -/
theorem initV8_contract (Env : Type) (runScript : Env → Script → Option Env)
    (entryCallable : Env → Bool) (e0 : Env)
    (utilityScript pac_script : Script) :
    (InitV8 runScript entryCallable e0 utilityScript pac_script =
        .compileFailure ↔
      runScript e0 utilityScript = none ∨
      (∃ e1, runScript e0 utilityScript = some e1 ∧
        runScript e1 pac_script = none)) ∧
    (∀ e, InitV8 runScript entryCallable e0 utilityScript pac_script = .ok e ↔
      (∃ e1, runScript e0 utilityScript = some e1 ∧
        runScript e1 pac_script = some e ∧ entryCallable e = true)) ∧
    (InitV8 runScript entryCallable e0 utilityScript pac_script =
        .entryMissing ↔
      (∃ e1 e2, runScript e0 utilityScript = some e1 ∧
        runScript e1 pac_script = some e2 ∧ entryCallable e2 = false)) := by
  unfold InitV8
  cases h0 : runScript e0 utilityScript with
  | none => simp [h0]
  | some e1 =>
    cases h1 : runScript e1 pac_script with
    | none => simp [h0, h1]
    | some e2 =>
      cases h2 : entryCallable e2 with
      | false => simp [h0, h1, h2]
      | true =>
        refine ⟨by simp [h0, h1, h2], ?_, by simp [h0, h1, h2]⟩
        intro e
        simp only [h0, h1]
        rw [if_pos h2]
        constructor
        · intro he
          have he' : e2 = e := by injection he
          subst he'
          exact ⟨e1, rfl, h1, h2⟩
        · rintro ⟨e1', he1, he2, _⟩
          rw [Option.some.injEq] at he1
          subst he1
          rw [h1, Option.some.injEq] at he2
          subst he2
          rfl

/-- Claim C9: `GetProxyForURL` before any successful `SetPacScript`
(`context_ = none`) returns `ERR_FAILED` with no result string and no
diagnostic, and the engine is never entered: the answer does not depend on
what the engine would do. -/
theorem getProxyForURL_not_initialized (Env : Type)
    (entryOk entryOk' : Env → Bool)
    (outcome outcome' : Env → U16 → U16 → V8Outcome) (url host : U16) :
    GetProxyForURL entryOk outcome (none : Option Env) url host =
      (.errFailed, none, none) ∧
    GetProxyForURL entryOk outcome (none : Option Env) url host =
      GetProxyForURL entryOk' outcome' (none : Option Env) url host :=
  ⟨rfl, rfl⟩

theorem parseIPTokens_none_of_bad {ts : List (List Char)}
    (h : ∃ t ∈ ts, ParseIPLiteralToNumber t = none) :
    parseIPTokens ts = none := by
  induction ts with
  | nil =>
    obtain ⟨t, ht, _⟩ := h
    cases ht
  | cons a as ih =>
    obtain ⟨t, ht, hp⟩ := h
    rcases List.mem_cons.mp ht with heq | hmem
    · subst heq
      unfold parseIPTokens
      rw [hp]
    · unfold parseIPTokens
      rw [ih ⟨t, hmem, hp⟩]
      cases ParseIPLiteralToNumber a <;> rfl

/-- Claim C3: `SortIpAddressList` fails — with no partial output, modelled
by `none` — whenever stripping spaces and tabs leaves an empty string, or
some token between the `;` separators fails to parse as an IPv4 or IPv6
literal, or no token was produced at all; in particular both ";" and ""
fail. -/
theorem sortIpAddressList_failure_cases :
    (∀ input : List Char,
      ((RemoveChars input [' ', '\t']).2 = [] ∨
        strtokSemi ((RemoveChars input [' ', '\t']).2) = [] ∨
        (∃ t ∈ strtokSemi ((RemoveChars input [' ', '\t']).2),
          ParseIPLiteralToNumber t = none)) →
      SortIpAddressList input = none) ∧
    SortIpAddressList [';'] = none ∧
    SortIpAddressList [] = none := by
  refine ⟨?_, by decide, by decide⟩
  intro input h
  unfold SortIpAddressList
  by_cases hemp : (RemoveChars input [' ', '\t']).2 = []
  · rw [if_pos hemp]
  · rw [if_neg hemp]
    rcases h with hemp' | hnil | hbad
    · exact absurd hemp' hemp
    · rw [hnil]
      rfl
    · rw [parseIPTokens_none_of_bad hbad]

/-- Claim C10: the empty segments that consecutive, leading or trailing `;`
separators produce are silently skipped rather than treated as parse
failures: the tokens are exactly the plain `;`-split with the empty
segments dropped, and "1.2.3.4;;5.6.7.8" succeeds, sorting its two valid
addresses. -/
theorem sortIpAddressList_skips_empty_segments :
    (∀ s : List Char,
      strtokSemi s = (splitOnChar ';' s).filter (fun u => decide (u ≠ []))) ∧
    SortIpAddressList ("1.2.3.4;;5.6.7.8".data) =
      some ("1.2.3.4;5.6.7.8".data) :=
  ⟨strtokSemi_eq_filter, by decide⟩

/-- Claim C4: `IsInNetEx` is false when stripping space or tab from the
address removes a character, when the address fails to parse as an IP
literal, when the prefix fails to parse as a CIDR block, or when address
and prefix network differ in byte length; otherwise it is true exactly
when the top `bits` bits of the address equal those of the prefix network;
and the spec's two examples hold. -/
theorem isInNetEx_contract :
    (∀ a p : List Char, IsInNetEx a p = true ↔
      ((RemoveChars a [' ', '\t']).1 = false ∧
        ∃ address nw bits,
          ParseIPLiteralToNumber a = some address ∧
          ParseCIDRBlock p = some (nw, bits) ∧
          address.length = nw.length ∧
          ipToNat address / 2 ^ (8 * address.length - bits) =
            ipToNat nw / 2 ^ (8 * nw.length - bits))) ∧
    IsInNetEx ("10.1.2.3".data) ("10.1.0.0/16".data) = true ∧
    IsInNetEx ("10.1.2.3".data) ("::/16".data) = false := by
  refine ⟨?_, by decide, by decide⟩
  intro a p
  unfold IsInNetEx
  cases hrem : (RemoveChars a [' ', '\t']).1 with
  | true => simp [hrem]
  | false =>
    rw [if_neg (by simp [hrem])]
    cases hpa : ParseIPLiteralToNumber a with
    | none => simp [hpa]
    | some address =>
      cases hpc : ParseCIDRBlock p with
      | none => simp [hpc]
      | some pr =>
        obtain ⟨nw, bits⟩ := pr
        by_cases hlen : address.length = nw.length
        · simp only [hlen, IPNumberMatchesCIDR]
          simp [hlen]
          constructor
          · intro hdiv
            exact ⟨nw, bits, ⟨rfl, rfl⟩, rfl, hdiv⟩
          · rintro ⟨x, x1, ⟨rfl, rfl⟩, _, hdiv⟩
            exact hdiv
        · simp [hlen]

/-- Claim C2: whenever `SortIpAddressList` succeeds, the output is the
parsed tokens reordered by a stable ascending sort — an address with more
bytes (16, IPv6) before one with fewer (4, IPv4); equal byte counts ordered
by ascending lexicographic byte comparison of the parsed numeric forms;
equal numeric forms kept in input order (stability) — each element being
the token's original textual form, rejoined with ';'; and "::1;1.2.3.4"
succeeds with "::1" before "1.2.3.4". -/
theorem sortIpAddressList_stable_ascending :
    (∀ input out : List Char, SortIpAddressList input = some out →
      ∃ v : List IPAddress,
        parseIPTokens (strtokSemi ((RemoveChars input [' ', '\t']).2)) =
          some v ∧
        out = List.intercalate [';']
          ((stableSortIP v).map IPAddress.string_value) ∧
        List.Perm (stableSortIP v) v ∧
        List.Pairwise (fun x y =>
          y.ip_address_number.length ≤ x.ip_address_number.length ∧
          (x.ip_address_number.length = y.ip_address_number.length →
            memcmpLess y.ip_address_number x.ip_address_number = false))
          (stableSortIP v) ∧
        (∀ n : List Nat,
          (stableSortIP v).filter (fun x => decide (x.ip_address_number = n)) =
            v.filter (fun x => decide (x.ip_address_number = n)))) ∧
    SortIpAddressList ("::1;1.2.3.4".data) = some ("::1;1.2.3.4".data) := by
  refine ⟨?_, by decide⟩
  intro input out h
  unfold SortIpAddressList at h
  by_cases hemp : (RemoveChars input [' ', '\t']).2 = []
  · rw [if_pos hemp] at h
    cases h
  · rw [if_neg hemp] at h
    cases hp : parseIPTokens (strtokSemi ((RemoveChars input [' ', '\t']).2)) with
    | none =>
      rw [hp] at h
      exact Option.noConfusion h
    | some v =>
      rw [hp] at h
      replace h : (if v = [] then none
          else some (List.intercalate [';']
            ((stableSortIP v).map IPAddress.string_value))) = some out := h
      by_cases hv : v = []
      · rw [if_pos hv] at h
        exact Option.noConfusion h
      · rw [if_neg hv] at h
        refine ⟨v, rfl, (Option.some.inj h).symm, stableSortIP_perm v, ?_,
          stableSortIP_filter v⟩
        refine List.Pairwise.imp ?_ (stableSortIP_pairwise v)
        intro x y hxy
        rw [IPAddress.less, ipNumberLess_eq_ite] at hxy
        by_cases hl : y.ip_address_number.length = x.ip_address_number.length
        · rw [if_pos hl] at hxy
          exact ⟨le_of_eq hl, fun _ => hxy⟩
        · rw [if_neg hl] at hxy
          simp only [decide_eq_false_iff_not] at hxy
          exact ⟨by omega, fun hx => absurd hx.symm hl⟩

end PacResolver
